import Mathlib

/-!
Formal model of the PyrusCrypt reencryption pipeline.

The repository has three entry points (pyrus.py, Tpyrus.py, boot.py) sharing
one pipeline core.  External commands are modelled by their argument vectors
(`List String`); the outcome of every invocation is supplied by an
environment record, and each modelled routine returns the ordered trace of
the commands it invoked together with its result.  Strings, option values
and integer parsing mirror the Python semantics used by the source
(`str.split`, `str.startswith`, truthiness of `None`/`""`, `str(None)`,
maximal trailing-digit suffixes for `re`-based helpers).
-/

/-- Outcome of one external command invocation: clean exit, non-zero exit
status (raises `CalledProcessError` under `check=True`), or an unexpected
exception while launching/running the command. -/
inductive CmdRes : Type where
  | ok : CmdRes
  | fail : Nat → CmdRes
  | exn : CmdRes
deriving DecidableEq

/-- Python `s.startswith(pre)`. -/
def pyStartsWith (s pre : String) : Bool := pre.data.isPrefixOf s.data

/-- Python `s.endswith(suf)`. -/
def pyEndsWith (s suf : String) : Bool := suf.data.reverse.isPrefixOf s.data.reverse

/-- Split a character list at every occurrence of `c` (Python `s.split(c)`). -/
def splitCh (c : Char) : List Char → List (List Char)
  | [] => [[]]
  | a :: as =>
    let r := splitCh c as
    if a = c then [] :: r
    else
      match r with
      | [] => [[a]]
      | g :: gs => (a :: g) :: gs

/-- Python `s.split(c)` for a one-character separator. -/
def pySplit (c : Char) (s : String) : List String :=
  (splitCh c s.data).map String.mk

/-- Python `re.search(r"(\d+)$", s)`: the maximal trailing run of ASCII
digits, `""` when the string does not end in a digit
(`_get_partition_number`). -/
def trailingDigits (s : String) : String :=
  String.mk ((s.data.reverse.takeWhile Char.isDigit).reverse)

/-- Python `re.sub(r"\d+$", "", s)`, which on these inputs coincides with
`s.rstrip("0123456789")`: drop the maximal trailing run of digits. -/
def stripTrailingDigits (s : String) : String :=
  String.mk ((s.data.reverse.dropWhile Char.isDigit).reverse)

/-- Python `re.sub(r"p\d+$", "", s)`: drop a final `p` followed by one or
more digits, otherwise leave the string unchanged. -/
def stripPNumSuffix (s : String) : String :=
  let r := s.data.reverse
  let ds := r.takeWhile Char.isDigit
  let rest := r.dropWhile Char.isDigit
  if ds ≠ [] ∧ rest.head? = some 'p' then String.mk (rest.tail.reverse) else s

/-- `_get_base_disk_from_device` (boot.py): NVMe/MMC-style paths drop a
trailing `pN` suffix, all other paths drop a trailing numeric suffix. -/
def get_base_disk_from_device (p : String) : String :=
  if pyStartsWith p "/dev/nvme" || pyStartsWith p "/dev/mmcblk" then
    stripPNumSuffix p
  else stripTrailingDigits p

/-- Base disk used for `grub-install` in pyrus.py / Tpyrus.py:
`device.rstrip('0123456789')`. -/
def baseDiskForGrub (device : String) : String := stripTrailingDigits device

/-- Decimal value of a digit list (most significant first). -/
def digitsVal : List Char → Nat → Nat
  | [], acc => acc
  | c :: cs, acc => digitsVal cs (acc * 10 + (c.toNat - 48))

/-- Python `int(s)` restricted to the plain digit strings the source feeds
it (partition-number fields). -/
def pyAtoi (s : String) : Option Nat :=
  if s.data ≠ [] ∧ s.data.all Char.isDigit then some (digitsVal s.data 0) else none

/-- Python `str` applied to an optional integer: `None` renders as "None". -/
def pyStr : Option Nat → String
  | none => "None"
  | some n => Nat.repr n

/-- Python `str` applied to an optional string: `None` renders as "None". -/
def pyOptStr : Option String → String
  | none => "None"
  | some s => s

/-- Python `s.lower()` (ASCII, sufficient for the filesystem-type labels). -/
def toLowerStr (s : String) : String := String.mk (s.data.map Char.toLower)

/-- Code-point lexicographic comparison of character lists, the order Python
uses to compare and sort strings. -/
def lexLe : List Char → List Char → Bool
  | [], _ => true
  | _ :: _, [] => false
  | a :: as, b :: bs =>
    if a.toNat < b.toNat then true
    else if b.toNat < a.toNat then false
    else lexLe as bs

/-- Python `<=` on strings. -/
def pyLe (a b : String) : Bool := lexLe a.data b.data

/-- One entry of the device inventory produced by `list_block_devices`. -/
structure BlockDev where
  path : String
  type : String
  size : String
  mountpoint : Option String
  fstype : Option String
deriving DecidableEq

/-- One node of the parsed `lsblk -J` tree.  Fields are optional because the
source reads them with `dict.get`; `none` models an absent key. -/
inductive LsblkNode : Type where
  | node : (name : Option String) → (type : Option String) →
      (size : Option String) → (path : Option String) →
      (mountpoint : Option String) → (fstype : Option String) →
      (children : List LsblkNode) → LsblkNode

/-- Device path selection in `list_block_devices`:
`node.get("path") or f"/dev/\x7bnode.get('name')\x7d"` — the default is used
when the path is absent or the empty string (Python truthiness). -/
def devPathOf (path name : Option String) : String :=
  match path with
  | some p => if p = "" then "/dev/" ++ pyOptStr name else p
  | none => "/dev/" ++ pyOptStr name

mutual

/-- The `walk` closure of `list_block_devices`: collect `disk`/`part` nodes,
then recurse into the children. -/
def walkNode : LsblkNode → List BlockDev
  | .node name ty size path mpt fstype children =>
    (if ty = some "disk" ∨ ty = some "part" then
      [⟨devPathOf path name, ty.getD "", size.getD "?", mpt, fstype⟩]
     else []) ++ walkNodes children

/-- `walk` applied to each element of a node list. -/
def walkNodes : List LsblkNode → List BlockDev
  | [] => []
  | n :: ns => walkNode n ++ walkNodes ns

end

/-- Insertion step of a stable sort by a string key. -/
def insKey (key : α → String) (a : α) : List α → List α
  | [] => [a]
  | b :: bs => if pyLe (key a) (key b) then a :: b :: bs else b :: insKey key a bs

/-- Sort by a string key (`devices.sort(key=...)` / Python `sorted`). -/
def sortKey (key : α → String) (l : List α) : List α := l.foldr (insKey key) []

/-- `list_block_devices`: `none` models every failure of the `lsblk` query or
of its JSON parse (the function then returns the empty inventory); otherwise
walk the reported tree and sort the collected entries by path. -/
def list_block_devices (q : Option (List LsblkNode)) : List BlockDev :=
  match q with
  | none => []
  | some roots => sortKey BlockDev.path (walkNodes roots)

/-- One iteration of the line loop in `_get_table_type_and_last_part`
(boot.py): header lines starting with the disk path set the scheme label
from field 5; other lines starting with a digit contribute their first
`:`-field to the running maximum partition number. -/
def tableStep (disk : String) (acc : Option String × Option Nat) (line : String) :
    Option String × Option Nat :=
  if pyStartsWith line disk then
    let ps := pySplit ':' line
    if 6 ≤ ps.length then (some (ps.getD 5 ""), acc.2) else acc
  else if line.data ≠ [] ∧ (line.data.headD 'x').isDigit then
    match pyAtoi ((pySplit ':' line).headD "") with
    | some v =>
      (acc.1,
        match acc.2 with
        | none => some v
        | some m => if m < v then some v else some m)
    | none => acc
  else acc

/-- `_get_table_type_and_last_part` run over the split output lines of
`parted -m <disk> unit MiB print free`.  The second component is the
highest-numbered partition; `none` (Python `None`) is the "no partitions"
condition of the spec. -/
def getTableTypeAndLastPart (disk : String) (lines : List String) : String × Option Nat :=
  let acc := lines.foldl (tableStep disk) (none, none)
  (match acc.1 with
   | none => "unknown"
   | some t => if t = "" then "unknown" else t,
   acc.2)

/-- The numeric identifier of one geometry line, when the line is counted by
the loop of `_get_table_type_and_last_part`: not a header line, nonempty,
first character a digit, first `:`-field an integer. -/
def numericId (disk : String) (line : String) : Option Nat :=
  if pyStartsWith line disk then none
  else if line.data ≠ [] ∧ (line.data.headD 'x').isDigit then
    pyAtoi ((pySplit ':' line).headD "")
  else none

/-- Maximum of a list of naturals (`none` on the empty list). -/
def maxNat? : List Nat → Option Nat
  | [] => none
  | x :: xs =>
    match maxNat? xs with
    | none => some x
    | some m => some (Nat.max x m)

/-- Exact decimal number `num / 10^scale`: the value Python's
`float(end[:-3])` parses from a `MiB` end-offset field.  (For the integral
MiB values `parted` prints, the float is exact, so the exact decimal is a
faithful model.) -/
structure DecFrac where
  num : Nat
  scale : Nat
deriving DecidableEq

/-- Rational value of an exact decimal. -/
def DecFrac.val (f : DecFrac) : ℚ := (f.num : ℚ) / (10 : ℚ) ^ f.scale

/-- Parse a decimal literal `digits[.digits]` (the shape of the numbers in a
`parted` MiB listing) exactly. -/
def parseDec (s : String) : Option DecFrac :=
  match pySplit '.' s with
  | [a] => (pyAtoi a).map (fun n => ⟨n, 0⟩)
  | [a, b] =>
    if a.data = [] ∧ b.data = [] then none
    else
      match (if a.data = [] then some 0 else pyAtoi a),
            (if b.data = [] then some 0 else pyAtoi b) with
      | some x, some y => some ⟨x * 10 ^ b.data.length + y, b.data.length⟩
      | _, _ => none
  | _ => none

/-- Drop the trailing `MiB` tag of a geometry field (Python `end[:-3]`). -/
def dropMiBTag (s : String) : String :=
  String.mk (s.data.take (s.data.length - 3))

/-- `_get_partition_end_mib` (boot.py): scan the geometry lines for the row
whose first field equals the partition number and parse its end-offset
field.  `none` models every exception path of the source: row not found
(`RuntimeError`), row shorter than three fields (`IndexError`), malformed
number (`ValueError`). -/
def getPartitionEndMiB (disk : String) (pn : String) : List String → Option DecFrac
  | [] => none
  | line :: rest =>
    if line.data = [] ∨ pyStartsWith line "BYT;" ∨ pyStartsWith line disk then
      getPartitionEndMiB disk pn rest
    else
      let fields := pySplit ':' line
      if fields.headD "" = pn then
        match fields.get? 2 with
        | none => none
        | some e =>
          if pyEndsWith e "MiB" then parseDec (dropMiBTag e)
          else getPartitionEndMiB disk pn rest
      else getPartitionEndMiB disk pn rest

/-- Environment of the shrink planner: outcome of each streamed command, and
the `parted -m … unit MiB print free` listing (`none` models the query
raising; the source runs the same query for the table scan and for the
end-offset lookup, so one field serves both). -/
structure SysEnv where
  run : List String → CmdRes
  partedPrint : Option (List String)

/-- Result of `_shrink_partition_free_space`: the returned success flag and
the ordered trace of invoked commands. -/
structure ShrinkOut where
  ok : Bool
  trace : List (List String)
deriving DecidableEq

/-- `_shrink_partition_free_space` (boot.py).  Every command is recorded in
invocation order; any exception inside the body is caught by the enclosing
`try` and surfaces as `ok = false` (best-effort contract).  A non-zero exit
of a `check=False` step (`partprobe`, `udevadm settle`, the remount pair)
does not raise; only a launch exception does. -/
def shrink (devPath : String) (mnt : Option String) (baseDisk : String) (env : SysEnv) :
    ShrinkOut :=
  if mnt = some "/" then ⟨false, []⟩ else
  let pre :=
    match mnt with
    | none => (([] : List (List String)), false, (none : Option String))
    | some m =>
      let c := ["umount", devPath]
      match env.run c with
      | .ok => ([c], false, some m)
      | _ => ([c], true, (none : Option String))
  if pre.2.1 then ⟨false, pre.1⟩ else
  let remountAfter := pre.2.2
  let cF := ["e2fsck", "-f", "-y", devPath]
  let t1 := pre.1 ++ [cF]
  match env.run cF with
  | .ok =>
    let cR := ["resize2fs", "-M", devPath]
    let t2 := t1 ++ [cR]
    match env.run cR with
    | .ok =>
      let pn := trailingDigits devPath
      if pn = "" then ⟨false, t2⟩ else
      match env.partedPrint with
      | none => ⟨false, t2⟩
      | some lines =>
        if pn ≠ pyStr (getTableTypeAndLastPart baseDisk lines).2 then ⟨false, t2⟩ else
        match getPartitionEndMiB baseDisk pn lines with
        | none => ⟨false, t2⟩
        | some f =>
          let newEnd : ℚ := max 1 (f.val - 1050)
          let cP := ["parted", baseDisk, "--script", "unit", "MiB", "resizepart", pn,
                     Nat.repr (Int.toNat ⌊newEnd⌋) ++ "MiB"]
          let t3 := t2 ++ [cP]
          match env.run cP with
          | .ok =>
            let cPr := ["partprobe", baseDisk]
            let t4 := t3 ++ [cPr]
            match env.run cPr with
            | .exn => ⟨false, t4⟩
            | _ =>
              let cU := ["udevadm", "settle"]
              let t5 := t4 ++ [cU]
              match env.run cU with
              | .exn => ⟨false, t5⟩
              | _ =>
                match remountAfter with
                | none => ⟨true, t5⟩
                | some m =>
                  let cD := ["mkdir", "-p", m]
                  let t6 := t5 ++ [cD]
                  match env.run cD with
                  | .exn => ⟨false, t6⟩
                  | _ =>
                    let cM := ["mount", devPath, m]
                    let t7 := t6 ++ [cM]
                    match env.run cM with
                    | .exn => ⟨false, t7⟩
                    | _ => ⟨true, t7⟩
          | _ => ⟨false, t3⟩
    | _ => ⟨false, t2⟩
  | _ => ⟨false, t1⟩

/-- Environment of `create_boot_partition_if_missing`: command outcomes, the
geometry listing, the three inventory snapshots the source takes
(`parts_before`, `current`, `after`), and `blkid` UUID lookups (`none`
models the lookup raising). -/
structure BootEnv extends SysEnv where
  qBefore : Option (List LsblkNode)
  qCurrent : Option (List LsblkNode)
  qAfter : Option (List LsblkNode)
  blkid : String → Option String

/-- Result of `create_boot_partition_if_missing`.  `createFailed`,
`notDetected` and `uuidFailed` are the source's early `return`s;
`raised` models an exception propagating to the caller (which treats the
whole procedure as best-effort). -/
inductive BootResult : Type where
  | createFailed : BootResult
  | notDetected : BootResult
  | uuidFailed : BootResult
  | completed : String → BootResult
  | raised : BootResult
deriving DecidableEq

/-- Trace and result of the boot-partition creator. -/
structure BootOut where
  result : BootResult
  trace : List (List String)
deriving DecidableEq

/-- Shrink-target selection in `create_boot_partition_if_missing`: prefer the
first partition mounted at `/`, else fall back to the selected device with
its own (truthy) mountpoint. -/
def shrinkSelection (device : String) (current : List BlockDev) : String × Option String :=
  match current.filter (fun p => p.mountpoint = some "/" ∧ p.type = "part") with
  | p :: _ => (p.path, some "/")
  | [] =>
    match current.find? (fun p => p.path = device ∧ p.mountpoint ≠ none ∧ p.mountpoint ≠ some "") with
    | some p => (device, p.mountpoint)
    | none => (device, none)

/-- The sorted set difference `sorted(after_set - before_set)` of inventory
paths: the candidate new partitions after `mkpart`. -/
def newBootCandidates (before after : List BlockDev) : List String :=
  sortKey (fun s => s)
    (((after.map BlockDev.path).dedup).filter
      (fun p => ¬ (before.map BlockDev.path).contains p))

/-- Run a list of strict commands in order, stopping at the first one that
does not exit cleanly. -/
def runChain (run : List String → CmdRes) (t : List (List String)) :
    List (List String) → List (List String) × Bool
  | [] => (t, true)
  | c :: cs =>
    match run c with
    | .ok => runChain run (t ++ [c]) cs
    | _ => (t ++ [c], false)

/-- `create_boot_partition_if_missing` (boot.py). -/
def create_boot (device : String) (env : BootEnv) : BootOut :=
  let before := list_block_devices env.qBefore
  let base_disk := get_base_disk_from_device device
  let dev_fstype :=
    match before.find? (fun p => p.path = device) with
    | some p => p.fstype
    | none => none
  let is_luks :=
    toLowerStr (pyOptStr dev_fstype) = "crypto_luks" ∨ toLowerStr (pyOptStr dev_fstype) = "luks"
  match env.partedPrint with
  | none => ⟨.raised, []⟩
  | some _lines =>
    let sel := shrinkSelection device (list_block_devices env.qCurrent)
    let t0 := if is_luks then [] else (shrink sel.1 sel.2 base_disk env.toSysEnv).trace
    let cMk := ["parted", base_disk, "--script", "mkpart", "primary", "ext4", "-1050MiB", "-1MiB"]
    let t1 := t0 ++ [cMk]
    match env.run cMk with
    | .fail _ => ⟨.createFailed, t1⟩
    | .exn => ⟨.raised, t1⟩
    | .ok =>
      let cPr := ["partprobe", base_disk]
      let t2 := t1 ++ [cPr]
      match env.run cPr with
      | .exn => ⟨.raised, t2⟩
      | _ =>
        let cU := ["udevadm", "settle"]
        let t3 := t2 ++ [cU]
        match env.run cU with
        | .exn => ⟨.raised, t3⟩
        | _ =>
          let after := list_block_devices env.qAfter
          let news := newBootCandidates before after
          match news.getLast? with
          | none => ⟨.notDetected, t3⟩
          | some new_boot =>
            let copyCmds :=
              [["mkfs.ext4", "-L", "BOOT", new_boot],
               ["mkdir", "-p", "/mnt/tmpboot"],
               ["mount", new_boot, "/mnt/tmpboot"],
               ["bash", "-c", "cp -a /boot/. /mnt/tmpboot/"],
               ["umount", "/mnt/tmpboot"]]
            let r := runChain env.run t3 copyCmds
            if r.2 = false then ⟨.raised, r.1⟩ else
            match env.blkid new_boot with
            | none => ⟨.uuidFailed, r.1⟩
            | some u =>
              let cE := ["bash", "-c",
                "echo \x27UUID=" ++ u ++ " /boot ext4 defaults 0 2\x27 >> /etc/fstab"]
              let t6 := r.1 ++ [cE]
              match env.run cE with
              | .ok => ⟨.completed new_boot, t6⟩
              | _ => ⟨.raised, t6⟩

/-- Outcome of writing the passphrase into the freshly created temporary key
file (`tf.write(password.encode())`, `tf.flush()`, `tf.close()`): `exn`
models an exception in that window (for instance `password.encode()`
raising `UnicodeEncodeError` on a lone surrogate, or an I/O error). -/
inductive WriteRes : Type where
  | ok : WriteRes
  | exn : WriteRes
deriving DecidableEq

/-- Environment of the pipeline worker (pyrus.py `_worker` / Tpyrus.py
`main`): command outcomes, the key-file write outcome, `blkid` UUID lookups
(`none` = the lookup raising), and the inventory snapshot taken inside the
chroot phase. -/
structure WorkerEnv where
  run : List String → CmdRes
  keyWrite : WriteRes
  blkidUuid : String → Option String
  qParts : Option (List LsblkNode)

/-- Terminal state of the pipeline: full success, a strict command failure
(reported with the command and its exit code), or an unexpected exception. -/
inductive WExit : Type where
  | success : WExit
  | cmdFailed : List String → Nat → WExit
  | unexpected : WExit
deriving DecidableEq

/-- Observable outcome of one pipeline run: terminal state, ordered command
trace, and whether the temporary key file still exists on disk after the
routine (including its `finally` clause) has returned. -/
structure WorkerOut where
  exit : WExit
  trace : List (List String)
  keyfileOnDisk : Bool
deriving DecidableEq

/-- One `run_and_stream(..., check=True)` step. -/
def strictStep (run : List String → CmdRes) (t : List (List String)) (c : List String) :
    List (List String) × Option WExit :=
  match run c with
  | .ok => (t ++ [c], none)
  | .fail rc => (t ++ [c], some (.cmdFailed c rc))
  | .exn => (t ++ [c], some .unexpected)

/-- One `run_and_stream(..., check=False)` step: a non-zero exit does not
raise, only a launch exception does. -/
def looseStep (run : List String → CmdRes) (t : List (List String)) (c : List String) :
    List (List String) × Option WExit :=
  match run c with
  | .exn => (t ++ [c], some .unexpected)
  | _ => (t ++ [c], none)

/-- Sequence two steps: exceptions short-circuit. -/
def andStep (r : List (List String) × Option WExit)
    (k : List (List String) → List (List String) × Option WExit) :
    List (List String) × Option WExit :=
  match r with
  | (t, some e) => (t, some e)
  | (t, none) => k t

/-- The per-partition mount loop of the chroot phase: vfat/efi partitions are
mounted at the EFI mountpoint, ext2/3/4 partitions at the boot mountpoint,
each after a `blkid` UUID lookup. -/
def chrootMountLoop (env : WorkerEnv) (t : List (List String)) :
    List BlockDev → List (List String) × Option WExit
  | [] => (t, none)
  | p :: ps =>
    if p.type = "part" ∧ (p.fstype = some "vfat" ∨ p.fstype = some "efi") then
      match env.blkidUuid p.path with
      | none => (t, some .unexpected)
      | some u =>
        andStep (looseStep env.run t ["mkdir", "-p", "/mnt/root/boot/efi"]) fun t =>
        andStep (looseStep env.run t ["mount", "UUID=" ++ u, "/mnt/root/boot/efi"]) fun t =>
        chrootMountLoop env t ps
    else if p.type = "part" ∧
        (p.fstype = some "ext2" ∨ p.fstype = some "ext3" ∨ p.fstype = some "ext4") then
      match env.blkidUuid p.path with
      | none => (t, some .unexpected)
      | some u =>
        andStep (looseStep env.run t ["mkdir", "-p", "/mnt/root/boot"]) fun t =>
        andStep (looseStep env.run t ["mount", "UUID=" ++ u, "/mnt/root/boot"]) fun t =>
        chrootMountLoop env t ps
    else chrootMountLoop env t ps

/-- The `GRUB_CMDLINE_LINUX` line written for the encrypted root. -/
def grubLine (uuid : String) : String :=
  "GRUB_CMDLINE_LINUX=\"cryptdevice=UUID=" ++ uuid ++ ":cryptroot root=/dev/mapper/cryptroot\""

/-- The grep-and-sed shell command updating or appending the kernel command
line inside the chroot. -/
def grubSedCmd (uuid : String) : String :=
  "grep -q \x27^GRUB_CMDLINE_LINUX\x27 /etc/default/grub && sed -i \x27s|^GRUB_CMDLINE_LINUX.*|"
    ++ grubLine uuid ++ "|\x27 /etc/default/grub || echo \x27" ++ grubLine uuid
    ++ "\x27 >> /etc/default/grub"

/-- The system-integration (chroot) phase of pyrus.py / Tpyrus.py: open the
container, best-effort check/resize/mount, discover and mount boot/EFI
partitions, bind mounts, crypttab/fstab rewrite, initramfs regeneration,
kernel command line, `grub-install` on the digit-stripped base disk, and
`update-grub`. -/
def chrootPhase (device kf : String) (env : WorkerEnv) (t : List (List String)) :
    List (List String) × Option WExit :=
  match env.blkidUuid device with
  | none => (t, some .unexpected)
  | some uuid =>
    andStep (strictStep env.run t ["cryptsetup", "open", device, "cryptroot", "--key-file", kf]) fun t =>
    andStep (looseStep env.run t ["e2fsck", "-f", "/dev/mapper/cryptroot"]) fun t =>
    andStep (looseStep env.run t ["resize2fs", "/dev/mapper/cryptroot"]) fun t =>
    andStep (looseStep env.run t ["mkdir", "-p", "/mnt/root"]) fun t =>
    andStep (looseStep env.run t ["mount", "/dev/mapper/cryptroot", "/mnt/root"]) fun t =>
    andStep (chrootMountLoop env t (list_block_devices env.qParts)) fun t =>
    andStep (looseStep env.run t ["mount", "--bind", "/dev", "/mnt/root/dev"]) fun t =>
    andStep (looseStep env.run t ["mount", "--bind", "/proc", "/mnt/root/proc"]) fun t =>
    andStep (looseStep env.run t ["mount", "--bind", "/sys", "/mnt/root/sys"]) fun t =>
    andStep (looseStep env.run t ["mount", "--bind", "/run", "/mnt/root/run"]) fun t =>
    andStep (looseStep env.run t ["chroot", "/mnt/root", "/bin/bash", "-c",
      "echo \x27cryptroot UUID=" ++ uuid ++ " none luks\x27 > /etc/crypttab"]) fun t =>
    andStep (looseStep env.run t ["chroot", "/mnt/root", "/bin/bash", "-c",
      "echo \x27/dev/mapper/cryptroot / ext4 defaults 0 1\x27 > /etc/fstab"]) fun t =>
    andStep (strictStep env.run t ["chroot", "/mnt/root", "/bin/bash", "-c",
      "update-initramfs -u -k all"]) fun t =>
    andStep (strictStep env.run t ["chroot", "/mnt/root", "/bin/bash", "-c", grubSedCmd uuid]) fun t =>
    andStep (strictStep env.run t ["chroot", "/mnt/root", "/bin/bash", "-c",
      "grub-install " ++ baseDiskForGrub device]) fun t =>
    strictStep env.run t ["chroot", "/mnt/root", "/bin/bash", "-c", "update-grub"]

/-- The fixed `cryptsetup reencrypt` invocation of the pipeline. -/
def cryptsetupReencryptCmd (device kf reduceSize : String) : List String :=
  ["cryptsetup", "reencrypt", "--batch-mode", "--encrypt", "--type", "luks2",
   "--hash", "sha256", "--pbkdf", "pbkdf2", "--reduce-device-size", reduceSize,
   "--key-file", kf, device]

/-- The pipeline worker of pyrus.py `_worker` / Tpyrus.py `main` (identical
command structure; these entry points have no boot-partition step).  The
temporary key file is created first (`NamedTemporaryFile(delete=False)`,
modelled as succeeding — a failure there leaves nothing on disk); if writing
the passphrase into it raises, the exception reaches the outer handler while
`keyfile` is still `None`, so the `finally` clause skips the deletion and
the file stays on disk.  Once `keyfile = tf.name` has run, the `finally`
clause deletes the file on every exit path. -/
def worker (device kf reduceSize : String) (runFsck runMinimize runChroot : Bool)
    (env : WorkerEnv) : WorkerOut :=
  match env.keyWrite with
  | .exn => ⟨.unexpected, [], true⟩
  | .ok =>
    let r0 : List (List String) × Option WExit := ([], none)
    let r1 := if runFsck then
        andStep r0 (fun t => strictStep env.run t ["e2fsck", "-f", "-y", device])
      else r0
    let r2 := if runMinimize then
        andStep r1 (fun t => strictStep env.run t ["resize2fs", "-M", device])
      else r1
    let r3 := andStep r2 (fun t => strictStep env.run t (cryptsetupReencryptCmd device kf reduceSize))
    let r4 := if runChroot then andStep r3 (fun t => chrootPhase device kf env t) else r3
    match r4 with
    | (t, none) => ⟨.success, t, false⟩
    | (t, some e) => ⟨e, t, false⟩

/-- A one-disk, one-partition inventory tree (the root filesystem on
`/dev/sda1`), used to evaluate the model on concrete runs. -/
def sampleTree : LsblkNode :=
  .node (some "sda") (some "disk") (some "20G") (some "/dev/sda") none none
    [.node (some "sda1") (some "part") (some "20G") (some "/dev/sda1") (some "/") (some "ext4") []]

/-- A concrete boot-creator environment: every command succeeds, the
inventory is identical before and after partition creation, and UUID lookups
fail. -/
def sampleBootEnv : BootEnv :=
  ⟨⟨fun _ => CmdRes.ok, some ["BYT;"]⟩, some [sampleTree], some [sampleTree],
   some [sampleTree], fun _ => none⟩

/-! Helper lemmas: the lexicographic string order is total and transitive,
insertion sort by a string key is sorted and permutes nothing in or out. -/

theorem lexLe_total (a b : List Char) : lexLe a b = true ∨ lexLe b a = true := by
  induction a generalizing b with
  | nil => left; simp [lexLe]
  | cons x xs ih =>
    cases b with
    | nil => right; simp [lexLe]
    | cons y ys =>
      rcases Nat.lt_trichotomy x.toNat y.toNat with h | h | h
      · left; simp [lexLe, h]
      · have h1 : ¬ x.toNat < y.toNat := by omega
        have h2 : ¬ y.toNat < x.toNat := by omega
        rcases ih ys with h3 | h3
        · left; simp [lexLe, h1, h2, h3]
        · right; simp [lexLe, h1, h2, h3]
      · right; simp [lexLe, h]

theorem lexLe_trans {a b c : List Char} (h1 : lexLe a b = true) (h2 : lexLe b c = true) :
    lexLe a c = true := by
  induction a generalizing b c with
  | nil => simp [lexLe]
  | cons x xs ih =>
    cases b with
    | nil => simp [lexLe] at h1
    | cons y ys =>
      cases c with
      | nil => simp [lexLe] at h2
      | cons z zs =>
        rcases Nat.lt_trichotomy x.toNat y.toNat with hxy | hxy | hxy
        · rcases Nat.lt_trichotomy y.toNat z.toNat with hyz | hyz | hyz
          · simp [lexLe, show x.toNat < z.toNat by omega]
          · simp [lexLe, show x.toNat < z.toNat by omega]
          · simp [lexLe, show ¬ y.toNat < z.toNat by omega, hyz] at h2
        · rcases Nat.lt_trichotomy y.toNat z.toNat with hyz | hyz | hyz
          · simp [lexLe, show x.toNat < z.toNat by omega]
          · have h1a : lexLe xs ys = true := by
              simpa [lexLe, show ¬ x.toNat < y.toNat by omega,
                show ¬ y.toNat < x.toNat by omega] using h1
            have h2a : lexLe ys zs = true := by
              simpa [lexLe, show ¬ y.toNat < z.toNat by omega,
                show ¬ z.toNat < y.toNat by omega] using h2
            simp [lexLe, show ¬ x.toNat < z.toNat by omega,
              show ¬ z.toNat < x.toNat by omega]
            exact ih h1a h2a
          · simp [lexLe, show ¬ y.toNat < z.toNat by omega, hyz] at h2
        · simp [lexLe, show ¬ x.toNat < y.toNat by omega, hxy] at h1

theorem pyLe_total (a b : String) : pyLe a b = true ∨ pyLe b a = true :=
  lexLe_total a.data b.data

theorem pyLe_trans {a b c : String} (h1 : pyLe a b = true) (h2 : pyLe b c = true) :
    pyLe a c = true :=
  lexLe_trans h1 h2

theorem mem_insKey {key : α → String} {a b : α} {l : List α} :
    b ∈ insKey key a l ↔ b = a ∨ b ∈ l := by
  induction l with
  | nil => simp [insKey]
  | cons c cs ih =>
    simp only [insKey]
    split
    · simp [List.mem_cons]
    · simp [List.mem_cons, ih]; tauto

theorem pairwise_insKey {key : α → String} {a : α} {l : List α}
    (h : l.Pairwise (fun x y => pyLe (key x) (key y) = true)) :
    (insKey key a l).Pairwise (fun x y => pyLe (key x) (key y) = true) := by
  induction l with
  | nil => simp [insKey]
  | cons b bs ih =>
    simp only [insKey]
    split
    · rename_i hab
      refine List.Pairwise.cons ?_ h
      intro x hx
      rcases List.mem_cons.mp hx with rfl | hx
      · exact hab
      · exact pyLe_trans hab ((List.pairwise_cons.mp h).1 x hx)
    · rename_i hab
      have hba : pyLe (key b) (key a) = true := by
        rcases pyLe_total (key a) (key b) with h1 | h1
        · exact absurd h1 hab
        · exact h1
      refine List.Pairwise.cons ?_ (ih (List.pairwise_cons.mp h).2)
      intro x hx
      rcases mem_insKey.mp hx with rfl | hx
      · exact hba
      · exact (List.pairwise_cons.mp h).1 x hx

theorem pairwise_sortKey (key : α → String) (l : List α) :
    (sortKey key l).Pairwise (fun x y => pyLe (key x) (key y) = true) := by
  induction l with
  | nil => simp [sortKey]
  | cons b bs ih => exact pairwise_insKey ih

theorem mem_sortKey {key : α → String} {a : α} {l : List α} :
    a ∈ sortKey key l ↔ a ∈ l := by
  induction l with
  | nil => simp [sortKey]
  | cons b bs ih =>
    simp only [sortKey, List.foldr_cons]
    rw [show List.foldr (insKey key) [] bs = sortKey key bs from rfl]
    simp [mem_insKey, ih]

mutual

theorem walkNode_kinds : ∀ (n : LsblkNode), ∀ d ∈ walkNode n,
    d.type = "disk" ∨ d.type = "part"
  | .node name ty size path mpt fstype children => by
    intro d hd
    simp only [walkNode, List.mem_append] at hd
    rcases hd with h | h
    · split at h
      · rename_i hty
        simp only [List.mem_singleton] at h
        subst h
        rcases hty with h1 | h1 <;> simp [h1]
      · simp at h
    · exact walkNodes_kinds children d h

theorem walkNodes_kinds : ∀ (ns : List LsblkNode), ∀ d ∈ walkNodes ns,
    d.type = "disk" ∨ d.type = "part"
  | [] => by intro d hd; simp [walkNodes] at hd
  | n :: ns => by
    intro d hd
    simp only [walkNodes, List.mem_append] at hd
    rcases hd with h | h
    · exact walkNode_kinds n d h
    · exact walkNodes_kinds ns d h

end

/-- C9: every sequence returned by the device inventory
(`list_block_devices`) is sorted lexicographically by path, and every
entry's kind is exactly `disk` or `part` (the source's spelling of the
spec's disk/partition; loop, crypt and other node kinds are skipped by the
walk). -/
theorem pyrusCrypt_C9_inventory (q : Option (List LsblkNode)) :
    (list_block_devices q).Pairwise (fun a b => pyLe a.path b.path = true) ∧
    ∀ d ∈ list_block_devices q, d.type = "disk" ∨ d.type = "part" := by
  cases q with
  | none => simp [list_block_devices]
  | some roots =>
    constructor
    · exact pairwise_sortKey BlockDev.path (walkNodes roots)
    · intro d hd
      exact walkNodes_kinds roots d (mem_sortKey.mp hd)

/-- C3: a shrink candidate mounted at `/` is refused before any command is
invoked: the planner returns `false` with an empty command trace. -/
theorem pyrusCrypt_C3_shrink_refuses_root (devPath baseDisk : String) (env : SysEnv) :
    shrink devPath (some "/") baseDisk env = ⟨false, []⟩ := by
  simp [shrink]

/-- C8 counterexample: for the NVMe target `/dev/nvme0n1p3` the platform
naming convention resolves the base disk to `/dev/nvme0n1`, but the
bootloader-reinstall path of pyrus.py / Tpyrus.py (`device.rstrip`) resolves
a different string, so the program does not use the convention for that
path. -/
theorem pyrusCrypt_C8_base_disk_counterexample :
    get_base_disk_from_device "/dev/nvme0n1p3" = "/dev/nvme0n1" ∧
    baseDiskForGrub "/dev/nvme0n1p3" ≠ get_base_disk_from_device "/dev/nvme0n1p3" := by
  decide

/-- C8 (amended): boot-partition creation resolves the base disk by the
platform naming convention (`get_base_disk_from_device`); the bootloader
reinstall during system integration instead strips all trailing decimal
digits, which coincides with the convention exactly for paths that are not
NVMe/MMC-style, and for NVMe/MMC paths with a `pN` suffix leaves the
trailing `p` in place. -/
theorem pyrusCrypt_C8_base_disk_amended :
    (∀ p : String, (pyStartsWith p "/dev/nvme" || pyStartsWith p "/dev/mmcblk") = false →
      baseDiskForGrub p = get_base_disk_from_device p) ∧
    baseDiskForGrub "/dev/nvme0n1p3" = "/dev/nvme0n1p" := by
  constructor
  · intro p h
    simp [get_base_disk_from_device, h, baseDiskForGrub]
  · decide

/-- C8 witness: the agreement statement of the amended claim at a concrete
non-NVMe path. -/
theorem pyrusCrypt_C8_base_disk_amended_witness :
    baseDiskForGrub "/dev/sda1" = get_base_disk_from_device "/dev/sda1" :=
  pyrusCrypt_C8_base_disk_amended.1 "/dev/sda1" (by decide)

/-- C2 (code-bug evaluation): in a run where writing the passphrase into the
freshly created temporary key file raises (for example `password.encode()`
failing on a lone surrogate, which happens before `keyfile = tf.name` is
executed), the pipeline returns through its exception handler and `finally`
clause with the key file still on disk, contradicting the claim that the
file never survives the pipeline. -/
theorem pyrusCrypt_C2_keyfile_leak :
    worker "/dev/sda1" "/tmp/key" "32M" true true false
        ⟨fun _ => CmdRes.ok, WriteRes.exn, fun _ => none, none⟩ =
      ⟨WExit.unexpected, [], true⟩ := rfl

/-- Once the key-file name has been recorded (the write completed), the
`finally` clause removes the file on every exit path of the worker. -/
theorem worker_keyfile_removed_once_recorded (device kf rs : String)
    (f m c : Bool) (env : WorkerEnv) (h : env.keyWrite = WriteRes.ok) :
    (worker device kf rs f m c env).keyfileOnDisk = false := by
  simp only [worker, h]
  split <;> rfl

/-- C1: with fsck and minimize enabled, system integration disabled (and the
cited entry points having no boot-partition step at all), a run whose three
commands succeed invokes exactly, in order: the integrity check, the minimal
resize, and the in-place encryption with the configured reduce size — and no
mount or chroot command. -/
theorem pyrusCrypt_C1_pipeline_commands (device kf reduceSize : String) (env : WorkerEnv)
    (hw : env.keyWrite = WriteRes.ok)
    (h1 : env.run ["e2fsck", "-f", "-y", device] = CmdRes.ok)
    (h2 : env.run ["resize2fs", "-M", device] = CmdRes.ok)
    (h3 : env.run (cryptsetupReencryptCmd device kf reduceSize) = CmdRes.ok) :
    worker device kf reduceSize true true false env =
      ⟨WExit.success,
        [["e2fsck", "-f", "-y", device], ["resize2fs", "-M", device],
         cryptsetupReencryptCmd device kf reduceSize], false⟩ ∧
    ∀ c ∈ (worker device kf reduceSize true true false env).trace,
      c.head? ≠ some "mount" ∧ c.head? ≠ some "chroot" := by
  have he : worker device kf reduceSize true true false env =
      ⟨WExit.success,
        [["e2fsck", "-f", "-y", device], ["resize2fs", "-M", device],
         cryptsetupReencryptCmd device kf reduceSize], false⟩ := by
    simp [worker, hw, andStep, strictStep, h1, h2, h3]
  refine ⟨he, ?_⟩
  rw [he]
  intro c hc
  simp only [List.mem_cons, List.mem_singleton, List.not_mem_nil, or_false] at hc
  rcases hc with rfl | rfl | rfl <;> simp [cryptsetupReencryptCmd]

/-- C1 witness: the scenario run on `/dev/sda1` with reduce size `32M` and
every command succeeding. -/
theorem pyrusCrypt_C1_pipeline_commands_witness :
    worker "/dev/sda1" "/tmp/key" "32M" true true false
        ⟨fun _ => CmdRes.ok, WriteRes.ok, fun _ => none, none⟩ =
      ⟨WExit.success,
        [["e2fsck", "-f", "-y", "/dev/sda1"], ["resize2fs", "-M", "/dev/sda1"],
         cryptsetupReencryptCmd "/dev/sda1" "/tmp/key" "32M"], false⟩ ∧
    ∀ c ∈ (worker "/dev/sda1" "/tmp/key" "32M" true true false
        ⟨fun _ => CmdRes.ok, WriteRes.ok, fun _ => none, none⟩).trace,
      c.head? ≠ some "mount" ∧ c.head? ≠ some "chroot" :=
  pyrusCrypt_C1_pipeline_commands "/dev/sda1" "/tmp/key" "32M" _ rfl rfl rfl rfl

theorem if_lt_eq_max (x v : Nat) : (if x < v then some v else some x) = some (Nat.max x v) := by
  rcases Nat.lt_or_ge x v with h | h
  · simp [h, Nat.max_eq_right (Nat.le_of_lt h)]
  · simp [Nat.not_lt.mpr h, Nat.max_eq_left h]

theorem tableStep_snd (disk : String) (acc : Option String × Option Nat) (line : String) :
    (tableStep disk acc line).2 =
      (match numericId disk line with
       | none => acc.2
       | some v =>
         match acc.2 with
         | none => some v
         | some m => some (Nat.max m v)) := by
  unfold tableStep numericId
  by_cases h1 : pyStartsWith line disk = true
  · rw [if_pos h1, if_pos h1]
    by_cases h5 : 6 ≤ (pySplit ':' line).length
    · simp [h5]
    · simp [h5]
  · rw [if_neg h1, if_neg h1]
    by_cases h2 : line.data ≠ [] ∧ (line.data.headD 'x').isDigit = true
    · rw [if_pos h2, if_pos h2]
      rcases h3 : pyAtoi ((pySplit ':' line).headD "") with _ | v
      · rfl
      · cases h4 : acc.2 with
        | none => simp [h4]
        | some m =>
          simp only [h4]
          exact if_lt_eq_max m v
    · rw [if_neg h2, if_neg h2]

theorem tableFold_snd (disk : String) (lines : List String) :
    ∀ (a : Option String) (b : Option Nat),
    (lines.foldl (tableStep disk) (a, b)).2 =
      (match b, maxNat? (lines.filterMap (numericId disk)) with
       | none, m => m
       | some x, none => some x
       | some x, some m => some (Nat.max x m)) := by
  induction lines with
  | nil =>
    intro a b
    cases b <;> simp [maxNat?]
  | cons l ls ih =>
    intro a b
    simp only [List.foldl_cons, List.filterMap_cons]
    rw [show tableStep disk (a, b) l = ((tableStep disk (a, b) l).1, (tableStep disk (a, b) l).2) from rfl]
    rw [ih]
    rw [tableStep_snd]
    rcases hn : numericId disk l with _ | v
    · rfl
    · cases b with
      | none =>
        rcases hm : maxNat? (ls.filterMap (numericId disk)) with _ | m <;>
          simp [maxNat?, hm]
      | some x =>
        rcases hm : maxNat? (ls.filterMap (numericId disk)) with _ | m <;>
          simp [maxNat?, hm, Nat.max_assoc]

/-- C5: the highest-numbered partition computed by
`_get_table_type_and_last_part` is `none` — the source's encoding of the
spec's `NoPartitions` condition, `PartitionTableInfo.highestPartitionNumber`
being optional — exactly when the listing contains no numeric partition
line, and otherwise equals the maximum of all numeric line identifiers
seen. -/
theorem pyrusCrypt_C5_last_partition_max (disk : String) (lines : List String) :
    ((getTableTypeAndLastPart disk lines).2 = none ↔
      lines.filterMap (numericId disk) = []) ∧
    (getTableTypeAndLastPart disk lines).2 = maxNat? (lines.filterMap (numericId disk)) := by
  have h : (getTableTypeAndLastPart disk lines).2 =
      maxNat? (lines.filterMap (numericId disk)) := by
    have := tableFold_snd disk lines none none
    simpa [getTableTypeAndLastPart] using this
  refine ⟨?_, h⟩
  rw [h]
  rcases hl : lines.filterMap (numericId disk) with _ | ⟨x, xs⟩
  · simp [maxNat?]
  · simp only [maxNat?]
    rcases hm : maxNat? xs with _ | m <;> simp

/-- C4: when the candidate is not the disk's highest-numbered partition, the
shrink planner returns failure and never invokes the table editor: no
`parted` command (in particular no `resizepart`) appears in the trace.  (The
geometry listing itself is obtained through the read-only reporting
interface, modelled as the environment's `partedPrint` field, not as a
command of the trace.) -/
theorem pyrusCrypt_C4_not_last_refused (devPath baseDisk : String) (mnt : Option String)
    (env : SysEnv) (lines : List String)
    (hp : env.partedPrint = some lines)
    (hlast : trailingDigits devPath ≠ pyStr (getTableTypeAndLastPart baseDisk lines).2) :
    (shrink devPath mnt baseDisk env).ok = false ∧
    ∀ c ∈ (shrink devPath mnt baseDisk env).trace, c.head? ≠ some "parted" := by
  rcases hS : shrink devPath mnt baseDisk env with ⟨ok, tr⟩
  simp only [shrink, hp] at hS
  repeat' split at hS
  all_goals simp_all
  all_goals try (obtain ⟨-, htr⟩ := hS)
  all_goals try subst htr
  all_goals intro c hc
  all_goals fin_cases hc <;> simp

/-- C4 witness: scenario 3 of the spec — partitions 1 (end 10000MiB) and
2 (end 20000MiB, last); requesting shrink of partition 1 fails and invokes
no table-editor command. -/
theorem pyrusCrypt_C4_not_last_refused_witness :
    (shrink "/dev/sda1" none "/dev/sda"
        ⟨fun _ => CmdRes.ok,
         some ["BYT;",
           "/dev/sda:21475MiB:scsi:512:512:gpt:ATA HARDDISK:;",
           "1:1MiB:10000MiB:9999MiB:ext4::;",
           "2:10000MiB:20000MiB:10000MiB:ext4::;"]⟩).ok = false ∧
    ∀ c ∈ (shrink "/dev/sda1" none "/dev/sda"
        ⟨fun _ => CmdRes.ok,
         some ["BYT;",
           "/dev/sda:21475MiB:scsi:512:512:gpt:ATA HARDDISK:;",
           "1:1MiB:10000MiB:9999MiB:ext4::;",
           "2:10000MiB:20000MiB:10000MiB:ext4::;"]⟩).trace,
      c.head? ≠ some "parted" :=
  pyrusCrypt_C4_not_last_refused "/dev/sda1" "/dev/sda" none _ _ rfl (by decide)

/-- C10: when the planner unmounted a candidate mounted somewhere other than
`/` (and no command raises an unexpected launch exception), every failing
run leaves the candidate unmounted: the trace contains the `umount` but no
`mount` command — the remount happens only on the success path. -/
theorem pyrusCrypt_C10_no_remount_on_failure (devPath m baseDisk : String) (env : SysEnv)
    (hm : m ≠ "/")
    (hu : env.run ["umount", devPath] = CmdRes.ok)
    (henx : ∀ c, env.run c ≠ CmdRes.exn)
    (hf : (shrink devPath (some m) baseDisk env).ok = false) :
    ["umount", devPath] ∈ (shrink devPath (some m) baseDisk env).trace ∧
    ∀ c ∈ (shrink devPath (some m) baseDisk env).trace, c.head? ≠ some "mount" := by
  rcases hS : shrink devPath (some m) baseDisk env with ⟨ok, tr⟩
  have hok : ok = false := by rw [hS] at hf; exact hf
  subst hok
  simp only [shrink] at hS
  rw [if_neg (by simp [hm])] at hS
  simp only [hu] at hS
  repeat' split at hS
  all_goals simp_all
  all_goals subst hS
  all_goals refine ⟨by simp, ?_⟩
  all_goals intro c hc
  all_goals fin_cases hc <;> simp

/-- C10 witness: candidate mounted at `/mnt/data`, `umount` succeeds, the
integrity check fails; the run returns with the umount in the trace and no
mount command. -/
theorem pyrusCrypt_C10_no_remount_on_failure_witness :
    ["umount", "/dev/sdb1"] ∈ (shrink "/dev/sdb1" (some "/mnt/data") "/dev/sdb"
        ⟨fun c => if c.head? = some "e2fsck" then CmdRes.fail 1 else CmdRes.ok,
         some []⟩).trace ∧
    ∀ c ∈ (shrink "/dev/sdb1" (some "/mnt/data") "/dev/sdb"
        ⟨fun c => if c.head? = some "e2fsck" then CmdRes.fail 1 else CmdRes.ok,
         some []⟩).trace,
      c.head? ≠ some "mount" :=
  pyrusCrypt_C10_no_remount_on_failure "/dev/sdb1" "/mnt/data" "/dev/sdb" _
    (by decide)
    (by decide)
    (by intro c; by_cases h : c.head? = some "e2fsck" <;> simp [h])
    (by decide)

theorem floor_max_newEnd_of_int (q : ℚ) (h : q.den = 1) :
    ((⌊max 1 (q - 1050)⌋ : ℚ)) = max 1 (q - 1050) := by
  have hn : ((q.num : ℤ) : ℚ) = q := (Rat.den_eq_one_iff q).mp h
  rw [← hn]
  have h2 : ((q.num : ℤ) : ℚ) - 1050 = ((q.num - 1050 : ℤ) : ℚ) := by push_cast; ring
  have h1 : (1 : ℚ) = ((1 : ℤ) : ℚ) := by norm_num
  rw [h2, h1, ← Int.cast_max, Int.floor_intCast]

/-- C7: for every shrink of the last partition (all commands succeeding, the
geometry listing reporting end offset `f` for the candidate), the resize
command written to the partition table carries the truncation of
`newEnd = max(1 MiB, currentEnd - 1050 MiB)`, and when the reported end is a
whole number of MiB the written value equals `newEnd` exactly. -/
theorem pyrusCrypt_C7_new_end (devPath baseDisk : String) (mnt : Option String)
    (env : SysEnv) (lines : List String) (f : DecFrac)
    (hroot : mnt ≠ some "/")
    (hok : ∀ c, env.run c = CmdRes.ok)
    (hp : env.partedPrint = some lines)
    (hpn : trailingDigits devPath ≠ "")
    (hlast : trailingDigits devPath = pyStr (getTableTypeAndLastPart baseDisk lines).2)
    (hend : getPartitionEndMiB baseDisk (trailingDigits devPath) lines = some f) :
    (shrink devPath mnt baseDisk env).ok = true ∧
    ["parted", baseDisk, "--script", "unit", "MiB", "resizepart", trailingDigits devPath,
      Nat.repr (Int.toNat ⌊max 1 (f.val - 1050)⌋) ++ "MiB"]
      ∈ (shrink devPath mnt baseDisk env).trace ∧
    (f.val.den = 1 → ((⌊max 1 (f.val - 1050)⌋ : ℚ) = max 1 (f.val - 1050))) := by
  have hcond : (trailingDigits devPath ≠ pyStr (getTableTypeAndLastPart baseDisk lines).2)
      = False := by simp [hlast]
  rcases hS : shrink devPath mnt baseDisk env with ⟨ok, tr⟩
  rcases mnt with _ | m
  · simp only [shrink, hok, hp, hend, hpn, hcond, if_false, ne_eq, not_false_iff,
      if_true] at hS
    rw [if_neg (show ¬((none : Option String) = some "/") by simp),
        if_neg (show ¬(false = true) by simp)] at hS
    simp only [ShrinkOut.mk.injEq] at hS
    obtain ⟨h1, h2⟩ := hS
    subst h1; subst h2
    exact ⟨rfl, by simp, fun hd => floor_max_newEnd_of_int f.val hd⟩
  · have hm : m ≠ "/" := fun h => hroot (by rw [h])
    simp only [shrink, hok, hp, hend, hpn, hcond, if_false, ne_eq, not_false_iff,
      if_true] at hS
    rw [if_neg (show ¬((some m : Option String) = some "/") by simp [hm]),
        if_neg (show ¬(false = true) by simp)] at hS
    simp only [ShrinkOut.mk.injEq] at hS
    obtain ⟨h1, h2⟩ := hS
    subst h1; subst h2
    exact ⟨rfl, by simp, fun hd => floor_max_newEnd_of_int f.val hd⟩

/-- C7 witness: shrinking the last partition (number 2, end 20000MiB) with
every command succeeding. -/
theorem pyrusCrypt_C7_new_end_witness :
    (shrink "/dev/sda2" none "/dev/sda"
        ⟨fun _ => CmdRes.ok,
         some ["BYT;",
           "/dev/sda:21475MiB:scsi:512:512:gpt:ATA HARDDISK:;",
           "1:1MiB:10000MiB:9999MiB:ext4::;",
           "2:10000MiB:20000MiB:10000MiB:ext4::;"]⟩).ok = true ∧
    ["parted", "/dev/sda", "--script", "unit", "MiB", "resizepart", trailingDigits "/dev/sda2",
      Nat.repr (Int.toNat ⌊max 1 ((DecFrac.mk 20000 0).val - 1050)⌋) ++ "MiB"]
      ∈ (shrink "/dev/sda2" none "/dev/sda"
        ⟨fun _ => CmdRes.ok,
         some ["BYT;",
           "/dev/sda:21475MiB:scsi:512:512:gpt:ATA HARDDISK:;",
           "1:1MiB:10000MiB:9999MiB:ext4::;",
           "2:10000MiB:20000MiB:10000MiB:ext4::;"]⟩).trace ∧
    ((DecFrac.mk 20000 0).val.den = 1 →
      ((⌊max 1 ((DecFrac.mk 20000 0).val - 1050)⌋ : ℚ) = max 1 ((DecFrac.mk 20000 0).val - 1050))) :=
  pyrusCrypt_C7_new_end "/dev/sda2" "/dev/sda" none _ _ ⟨20000, 0⟩
    (by decide) (fun _ => rfl) rfl (by decide) (by decide) (by decide)

theorem shrink_trace_cmds (devPath : String) (mnt : Option String) (baseDisk : String)
    (env : SysEnv) :
    ∀ c ∈ (shrink devPath mnt baseDisk env).trace,
      c.head? ≠ some "mkfs.ext4" ∧ c.head? ≠ some "bash" ∧
      (c.head? = some "mount" → ∃ m, mnt = some m ∧ c = ["mount", devPath, m]) := by
  rcases hS : shrink devPath mnt baseDisk env with ⟨ok, tr⟩
  simp only [shrink] at hS
  repeat' split at hS
  all_goals simp only [ShrinkOut.mk.injEq] at hS
  all_goals obtain ⟨h1, h2⟩ := hS
  all_goals subst h2
  all_goals intro c hc
  all_goals fin_cases hc <;> simp_all

theorem runChain_mem_mono (run : List String → CmdRes) :
    ∀ (cs : List (List String)) (t : List (List String)) (x : List String),
    x ∈ t → x ∈ (runChain run t cs).1 := by
  intro cs
  induction cs with
  | nil => intro t x hx; simpa [runChain] using hx
  | cons c cs ih =>
    intro t x hx
    simp only [runChain]
    cases h : run c with
    | ok => exact ih (t ++ [c]) x (List.mem_append_left _ hx)
    | fail rc => exact List.mem_append_left _ hx
    | exn => exact List.mem_append_left _ hx

theorem runChain_head_mem (run : List String → CmdRes) (t : List (List String))
    (c : List String) (cs : List (List String)) :
    c ∈ (runChain run t (c :: cs)).1 := by
  simp only [runChain]
  cases h : run c with
  | ok => exact runChain_mem_mono run cs (t ++ [c]) c (by simp)
  | fail rc => simp
  | exn => simp

/-- C6: if the post-creation inventory snapshot shows no path absent from the
pre-creation snapshot, the boot-partition creator reports the
not-detected condition and invokes no format (`mkfs.ext4`), no copy or
fstab-append (`bash`), and no mount at the scratch mountpoint; when new
paths do appear, the candidate list is sorted and its last (= the
lexicographically greatest) element is the partition the creator formats. -/
theorem pyrusCrypt_C6_detection (device : String) (env : BootEnv) (lines : List String)
    (hpl : env.partedPrint = some lines)
    (hmk : env.run ["parted", get_base_disk_from_device device, "--script",
      "mkpart", "primary", "ext4", "-1050MiB", "-1MiB"] = CmdRes.ok)
    (hpr : env.run ["partprobe", get_base_disk_from_device device] ≠ CmdRes.exn)
    (hud : env.run ["udevadm", "settle"] ≠ CmdRes.exn)
    (hsel : (shrinkSelection device (list_block_devices env.qCurrent)).2 ≠ some "/mnt/tmpboot") :
    ((newBootCandidates (list_block_devices env.qBefore) (list_block_devices env.qAfter)) = [] →
      (create_boot device env).result = BootResult.notDetected ∧
      ∀ c ∈ (create_boot device env).trace,
        c.head? ≠ some "mkfs.ext4" ∧ c.head? ≠ some "bash" ∧
        (c.head? = some "mount" → c.getLast? ≠ some "/mnt/tmpboot")) ∧
    (∀ nb, (newBootCandidates (list_block_devices env.qBefore)
        (list_block_devices env.qAfter)).getLast? = some nb →
      ["mkfs.ext4", "-L", "BOOT", nb] ∈ (create_boot device env).trace) ∧
    (newBootCandidates (list_block_devices env.qBefore)
        (list_block_devices env.qAfter)).Pairwise (fun a b => pyLe a b = true) := by
  rcases hC : create_boot device env with ⟨res, tr⟩
  simp only [create_boot, hpl, hmk] at hC
  revert hC
  rcases h2 : env.run ["partprobe", get_base_disk_from_device device] with _ | rc2 | _ <;>
    rcases h3 : env.run ["udevadm", "settle"] with _ | rc3 | _ <;>
    intro hC <;>
    first
      | exact absurd h2 hpr
      | exact absurd h3 hud
      | (refine ⟨?_, ?_, ?_⟩
         · intro hempty
           rw [hempty] at hC
           simp only [List.getLast?] at hC
           simp only [BootOut.mk.injEq] at hC
           obtain ⟨hres, htr⟩ := hC
           subst hres; subst htr
           refine ⟨rfl, ?_⟩
           intro c hc
           simp only [List.mem_append, List.mem_singleton] at hc
           rcases hc with ((hc | hc) | hc) | hc
           · split at hc
             · simp at hc
             · obtain ⟨hnf, hnb, hmt⟩ := shrink_trace_cmds _ _ _ _ c hc
               refine ⟨hnf, hnb, ?_⟩
               intro hmc
               obtain ⟨m, hm1, hm2⟩ := hmt hmc
               subst hm2
               simp only [List.getLast?]
               intro heq
               apply hsel
               rw [hm1]
               simp only [Option.some.injEq] at heq ⊢
               exact heq
           · subst hc
             exact ⟨by simp, by simp, by intro h; simp at h⟩
           · subst hc
             exact ⟨by simp, by simp, by intro h; simp at h⟩
           · subst hc
             exact ⟨by simp, by simp, by intro h; simp at h⟩
         · intro nb hnb
           simp only [hnb] at hC
           repeat' split at hC
           all_goals (
             simp only [BootOut.mk.injEq] at hC
             obtain ⟨hres, htr⟩ := hC
             subst htr)
           all_goals (
             first
               | exact runChain_head_mem _ _ _ _
               | exact List.mem_append_left _ (runChain_head_mem _ _ _ _))
         · exact pairwise_sortKey (fun s => s) _)

/-- C6 witness: identical before/after snapshots — the creator reports
not-detected and its trace holds no format, copy, fstab-append, or
scratch-mountpoint mount command. -/
theorem pyrusCrypt_C6_detection_witness :
    (newBootCandidates (list_block_devices sampleBootEnv.qBefore)
        (list_block_devices sampleBootEnv.qAfter)) = [] ∧
    ((create_boot "/dev/sda1" sampleBootEnv).result = BootResult.notDetected ∧
      ∀ c ∈ (create_boot "/dev/sda1" sampleBootEnv).trace,
        c.head? ≠ some "mkfs.ext4" ∧ c.head? ≠ some "bash" ∧
        (c.head? = some "mount" → c.getLast? ≠ some "/mnt/tmpboot")) :=
  ⟨by decide,
   (pyrusCrypt_C6_detection "/dev/sda1" sampleBootEnv ["BYT;"] rfl rfl
      (by decide) (by decide) (by decide)).1 (by decide)⟩
